import Mathlib

/-!
Verification development for mgptree (a Mathematics Genealogy Project
crawler and grapher).  The definitions below shallowly embed the core of
`mgptree.py`: the recursive crawl performed by `Node.__init__`, the seed
loop of `scrape`, the name-based identity resolution `fetchIDNum` /
`sameName`, and the dot-format rendering `graph` / `Node.dot_string`.

The HTTP transport and HTML text extraction are external collaborator
boundaries: a fetch environment maps an MGP id to either a transport
failure (a raised exception in the Python code) or an already-extracted
document (the fields that `extractPersonalData` reads off the page, plus
the advisor-id list, or `none` when `text.find("Advisor")` returns -1).
Exceptions are modelled with `Except`: there is no try/except anywhere in
the crawl path of the source, so a failure propagates to the top.
-/

namespace Mgptree

/-- The fields `Node.extractPersonalData` extracts from a fetched page,
together with the advisor ids that the advisor-section scan of
`Node.__init__` would find.  `advisorIds = none` models a page on which
`text.find("Advisor")` returns -1 (no advisor section at all);
`advisorIds = some l` models a page whose advisor section mentions
exactly the ids in `l`, in order. -/
structure Doc where
  name : String
  title : String
  institution : String
  yearOfDoctorate : String
  advisorIds : Option (List Nat)
deriving DecidableEq, Repr

/-- Result of fetching one id: either the extracted document, or a
transport-level failure (`requests.post` raising an exception). -/
inductive Fetched where
  | ok : Doc → Fetched
  | failure : Fetched
deriving DecidableEq, Repr

/-- A fetch environment: what the external site returns for each id. -/
def Env : Type := Nat → Fetched

/-- One record of the crawl, mirroring the attributes a fully
constructed Python `Node` carries.  Advisor references are stored by id
(the keys of the node dictionary), which is observationally equivalent
to the object references the Python code stores: the code only ever
reads `adv.id_num` from such a reference, and that id never changes. -/
structure Node where
  id_num : Nat
  gen : Nat
  name : String
  title : String
  institution : String
  year_of_doctorate : String
  nationality : String
  advisors : List Nat
deriving DecidableEq, Repr

/-- Association-list lookup, modelling `node_dict[id]` / `id in node_dict`. -/
def lookupId : List (Nat × Node) → Nat → Option Node
  | [], _ => none
  | (k, v) :: rest, id => if k = id then some v else lookupId rest id

/-- Dictionary assignment `node_dict[id] = node`: replaces the binding in
place when the key is present, otherwise appends it. -/
def setEntry : List (Nat × Node) → Nat → Node → List (Nat × Node)
  | [], id, v => [(id, v)]
  | (k, w) :: rest, id, v =>
    if k = id then (id, v) :: rest else (k, w) :: setEntry rest id v

/-- Mutable update of one record: appending `adv` to
`node_dict[id].advisors`, which is what `self.advised_by(...)` does to
the node stored for `id = self.id_num`. -/
def pushAdvisor : List (Nat × Node) → Nat → Nat → List (Nat × Node)
  | [], _, _ => []
  | (k, w) :: rest, id, adv =>
    if k = id then (k, { w with advisors := w.advisors ++ [adv] }) :: rest
    else (k, w) :: pushAdvisor rest id adv

/-- Crawl state: the node dictionary, the ids fetched so far (one entry
per `requests.post(id.php?id=..)` issued), and the stderr log. -/
structure CrawlState where
  graph : List (Nat × Node)
  fetchLog : List Nat
  errLog : List String
deriving DecidableEq, Repr

/-- The record `Node.__init__` has built right after
`extractPersonalData` ran: document fields copied over, `nationality`
always the empty string, `advisors` the empty list. -/
def mkNode (id gen : Nat) (d : Doc) : Node :=
  { id_num := id, gen := gen, name := d.name, title := d.title,
    institution := d.institution, year_of_doctorate := d.yearOfDoctorate,
    nationality := "", advisors := [] }

mutual

/-- Shallow embedding of `Node.__init__(id, gen, max_gen, node_dict)`:
register the record, fetch and extract the page (a transport failure
propagates as an exception), stop if `gen >= max_gen`, report to stderr
and stop if the advisor section is missing, otherwise walk the advisor
ids in order. -/
def crawlNode (env : Env) (id gen max_gen : Nat) (st : CrawlState) :
    Except Unit CrawlState :=
  match env id with
  | .failure => .error ()
  | .ok doc =>
    let st1 : CrawlState :=
      { graph := setEntry st.graph id (mkNode id gen doc),
        fetchLog := st.fetchLog ++ [id], errLog := st.errLog }
    if max_gen ≤ gen then .ok st1
    else
      match doc.advisorIds with
      | none =>
        .ok { st1 with
              errLog := st1.errLog ++ ["Error finding advisor for " ++ doc.name] }
      | some advs => crawlAdvisors env id gen max_gen advs st1
termination_by (max_gen + 1 - gen, 0)

/-- Shallow embedding of the `for adv in advs:` loop of `Node.__init__`:
an advisor already in the dictionary is reused (an edge is appended to
the current record and nothing is fetched); a new advisor is crawled at
`gen + 1` and then the edge is appended. -/
def crawlAdvisors (env : Env) (selfId gen max_gen : Nat) :
    List Nat → CrawlState → Except Unit CrawlState
  | [], st => .ok st
  | adv :: rest, st =>
    if (lookupId st.graph adv).isSome then
      crawlAdvisors env selfId gen max_gen rest (
        { st with graph := pushAdvisor st.graph selfId adv })
    else
      match crawlNode env adv (gen + 1) max_gen st with
      | .error e => .error e
      | .ok st2 =>
        crawlAdvisors env selfId gen max_gen rest (
          { st2 with graph := pushAdvisor st2.graph selfId adv })
termination_by advs _ => (max_gen - gen, advs.length + 1)

end

/-- The seed loop of `scrape`: `for pair in pairs: Node(id, 0, gens,
node_dict)` starting from a given state.  Note that the source performs
no membership check for seeds: every seed id is crawled unconditionally,
and an exception raised anywhere below aborts the loop. -/
def crawlSeeds (env : Env) (seeds : List Nat) (max_gen : Nat)
    (st : CrawlState) : Except Unit CrawlState :=
  match seeds with
  | [] => .ok st
  | s :: rest =>
    match crawlNode env s 0 max_gen st with
    | .error e => .error e
    | .ok st1 => crawlSeeds env rest max_gen st1

/-- `buildGraph` of the spec, the crawl half of `scrape`: run the seed
loop on the empty dictionary.  The seed ids are the already-resolved
positive ids (`scrape` filters out the -1 results of `fetchIDNum`
before this loop). -/
def buildGraph (env : Env) (seeds : List Nat) (max_gen : Nat) :
    Except Unit CrawlState :=
  crawlSeeds env seeds max_gen { graph := [], fetchLog := [], errLog := [] }

/-- A (last, first, middle) name triple, as produced by `parseName`. -/
abbrev NameT : Type := String × String × String

/-- Model of Python `str.lower()` on the ASCII names this program
handles: lowercase every character. -/
def strLower (s : String) : String :=
  String.mk (s.data.map Char.toLower)

/-- Shallow embedding of `sameName`: case-insensitive comparison of the
last and the first name; the middle components are never read. -/
def sameName (name1 name2 : NameT) : Bool :=
  let last1 := strLower name1.1
  let last2 := strLower name2.1
  let first1 := strLower name1.2.1
  let first2 := strLower name2.2.1
  last1 == last2 && first1 == first2

/-- Shallow embedding of `fetchIDNum`.  The search query against the
site and the regex extraction of its response are the external
resolution boundary: `candidates` is the list of (id, parsed name)
pairs the source builds from the response.  The result is the returned
integer together with the stderr lines written. -/
def fetchIDNum (last first middle : String)
    (candidates : List (Int × NameT)) : Int × List String :=
  let pairs := candidates.filter (fun pair => sameName pair.2 (last, first, middle))
  match pairs with
  | [] =>
    (-1, ["Unable to find a record for " ++ last ++ ", " ++ first ++ " " ++ middle])
  | [p] => (p.1, [])
  | _ :: _ :: _ =>
    (-1, ["Found multiple records for " ++ last ++ ", " ++ first ++ " " ++ middle])

/-- Greedy line filling, the helper recursion behind `textwrapFill`:
`cur` is the line being assembled, and a word is appended to it exactly
when the line would stay within `width` columns. -/
def fillAux (width : Nat) (cur : String) : List String → List String
  | [] => [cur]
  | w :: ws =>
    if cur.length + 1 + w.length ≤ width then fillAux width (cur ++ " " ++ w) ws
    else cur :: fillAux width w ws

/-- Model of Python `textwrap.fill(text, width)` for texts whose words
are individually no longer than `width` (true of every text this
program wraps): whitespace is normalized and words are packed greedily
into lines joined by newline characters. -/
def textwrapFill (width : Nat) (text : String) : String :=
  match ((text.data.splitOn ' ').filter (fun w => w ≠ [])).map String.mk with
  | [] => ""
  | w :: ws => String.intercalate "\n" (fillAux width w ws)

/-- Model of Python `str.replace('\n', '\\n')`: every newline character
is replaced by the two-character sequence backslash-n.  (Stated over
the character list since the pattern is a single character.) -/
def escapeNl (s : String) : String :=
  String.mk ((s.data.map (fun c => if c = '\n' then ['\\', 'n'] else [c])).flatten)

/-- The node declaration emitted for one record in brief mode:
`"node%d[label=\"%s\\n%s\"];\n" % (id_num, name, year_of_doctorate)`.
Note the two-character sequence backslash-n between the fields. -/
def nodeDeclString (n : Node) : String :=
  "node" ++ toString n.id_num ++ "[label=\"" ++ n.name ++ "\\n"
    ++ n.year_of_doctorate ++ "\"];\n"

/-- The edge declaration emitted for one advisor relation:
`"node%d->node%d;\n" % (adv.id_num, self.id_num)`. -/
def edgeString (advId selfId : Nat) : String :=
  "node" ++ toString advId ++ "->node" ++ toString selfId ++ ";\n"

/-- Shallow embedding of `Node.dot_string(print_advs, brief=True)`.
The brief branch computes the wrapped, newline-escaped `name` into a
local variable and then formats the label from the raw `self.name`
(the local is never used) — this mirrors the source exactly.  The
verbose branch wraps and escapes the institution and uses it. -/
def Node.dot_string (n : Node) (print_advs brief : Bool) : String :=
  let node_str :=
    if brief then
      let name := escapeNl (textwrapFill 20 n.name)
      "node" ++ toString n.id_num ++ "[label=\"" ++ n.name ++ "\\n"
        ++ n.year_of_doctorate ++ "\"];\n"
    else
      let institute := escapeNl (textwrapFill 25 n.institution)
      "node" ++ toString n.id_num ++ "[label=\"" ++ n.name ++ "\\n"
        ++ institute ++ "\\n" ++ n.year_of_doctorate ++ "\"];\n"
  if print_advs then
    node_str ++ String.join (n.advisors.map (fun adv => edgeString adv n.id_num))
  else node_str

/-- Shallow embedding of the `graph` procedure: concatenate, over the
node dictionary, the dot text of every node whose generation is within
`gen_depth`, passing `print_advs = (node.gen != gen_depth)`. -/
def graph (nodes : List (Nat × Node)) (gen_depth : Nat) : String :=
  nodes.foldl
    (fun node_string kn =>
      if kn.2.gen ≤ gen_depth then
        node_string ++ kn.2.dot_string (kn.2.gen != gen_depth) true
      else node_string)
    ""

/-- Decides whether the record for id `a` is an included node of the
render, in the sense of the spec: present and of generation within the
cutoff. -/
def includedNode (nodes : List (Nat × Node)) (d a : Nat) : Bool :=
  match lookupId nodes a with
  | some an => decide (an.gen ≤ d)
  | none => false

/-- Modelled from the spec (claim C5, the renderer contract as
written): include a node declaration exactly for records with
`generation ≤ d`; emit an edge exactly when the advisee has
`generation < d` and both endpoints are included nodes, so an edge
whose advisor node was excluded is itself excluded. -/
def renderClaimC5 (nodes : List (Nat × Node)) (d : Nat) : String :=
  String.join (nodes.map (fun kn =>
    if kn.2.gen ≤ d then
      nodeDeclString kn.2 ++
        (if kn.2.gen < d then
          String.join (((kn.2.advisors).filter (fun a => includedNode nodes d a)).map
            (fun a => edgeString a kn.2.id_num))
        else "")
    else ""))

/-- Modelled from the spec as amended: include a node declaration
exactly for records with `generation ≤ d`; emit the advisor edges of a
record exactly when it has `generation < d`, with no condition on the
advisor endpoint. -/
def renderAmendedC5 (nodes : List (Nat × Node)) (d : Nat) : String :=
  String.join (nodes.map (fun kn =>
    if kn.2.gen ≤ d then
      nodeDeclString kn.2 ++
        (if kn.2.gen < d then
          String.join ((kn.2.advisors).map (fun a => edgeString a kn.2.id_num))
        else "")
    else ""))

/-- Record update performed by `pushAdvisor` on the targeted record. -/
def appendAdv (adv : Nat) (w : Node) : Node :=
  { w with advisors := w.advisors ++ [adv] }

/-- All records of a dictionary have generation at most `N`. -/
def GensLE (g : List (Nat × Node)) (N : Nat) : Prop :=
  ∀ x nd, lookupId g x = some nd → nd.gen ≤ N

/-- Every advisor reference held by any record of the dictionary refers
to a present key. -/
def Closed (g : List (Nat × Node)) : Prop :=
  ∀ x nd a, lookupId g x = some nd → a ∈ nd.advisors →
    (lookupId g a).isSome = true

/-- Postcondition of one `crawlNode` call, bundling the invariants the
claims need: the crawled id is registered; keys only grow; ids other
than the crawled one that were already registered are not fetched again
and keep their generation; generation bounds and advisor-closure are
preserved. -/
def NodePost (id gen max_gen : Nat) (st st' : CrawlState) : Prop :=
  ((lookupId st'.graph id).isSome = true)
  ∧ (∀ x, (lookupId st.graph x).isSome = true → (lookupId st'.graph x).isSome = true)
  ∧ (∀ x, (lookupId st.graph x).isSome = true → x ≠ id →
      st'.fetchLog.count x = st.fetchLog.count x)
  ∧ (∀ x nd, lookupId st.graph x = some nd → x ≠ id →
      Option.map Node.gen (lookupId st'.graph x) = some nd.gen)
  ∧ (gen ≤ max_gen → GensLE st.graph max_gen → GensLE st'.graph max_gen)
  ∧ (Closed st.graph → Closed st'.graph)

/-- Postcondition of one `crawlAdvisors` call: keys only grow; already
registered ids are never fetched again and keep their generation;
generation bounds and advisor-closure are preserved. -/
def AdvPost (gen max_gen : Nat) (st st' : CrawlState) : Prop :=
  (∀ x, (lookupId st.graph x).isSome = true → (lookupId st'.graph x).isSome = true)
  ∧ (∀ x, (lookupId st.graph x).isSome = true →
      st'.fetchLog.count x = st.fetchLog.count x)
  ∧ (∀ x nd, lookupId st.graph x = some nd →
      Option.map Node.gen (lookupId st'.graph x) = some nd.gen)
  ∧ (gen < max_gen → GensLE st.graph max_gen → GensLE st'.graph max_gen)
  ∧ (Closed st.graph → Closed st'.graph)

/-- Environment with two records: id 1 (advisor: id 2) and id 2 (a
leaf with an empty advisor section). -/
def envA : Env := fun id =>
  match id with
  | 1 => .ok ⟨"A", "", "", "1900", some [2]⟩
  | 2 => .ok ⟨"B", "", "", "1870", some []⟩
  | _ => .failure

/-- The record for id 1 that `buildGraph envA [1] 3` produces. -/
def nodeA1 : Node :=
  { id_num := 1, gen := 0, name := "A", title := "", institution := "",
    year_of_doctorate := "1900", nationality := "", advisors := [2] }

/-- The record for id 2 that `buildGraph envA [1] 3` produces. -/
def nodeB2 : Node :=
  { id_num := 2, gen := 1, name := "B", title := "", institution := "",
    year_of_doctorate := "1870", nationality := "", advisors := [] }

/-- The state `buildGraph envA [1] 3` reaches. -/
def stA3 : CrawlState :=
  { graph := [(1, nodeA1), (2, nodeB2)], fetchLog := [1, 2], errLog := [] }

/-- Environment for the render counterexample: a chain 1 ← 2 ← 3 and a
second seed 4 that shares the deep ancestor 3. -/
def env5 : Env := fun id =>
  match id with
  | 1 => .ok ⟨"P1", "", "", "1950", some [2]⟩
  | 2 => .ok ⟨"P2", "", "", "1920", some [3]⟩
  | 3 => .ok ⟨"P3", "", "", "1890", some []⟩
  | 4 => .ok ⟨"P4", "", "", "1955", some [3]⟩
  | _ => .failure

/-- The node dictionary `buildGraph env5 [1, 4] 5` produces: record 3
carries generation 2 (first discovered through the chain) although it
is also an advisor of the generation-0 record 4. -/
def nodes5 : List (Nat × Node) :=
  [(1, { id_num := 1, gen := 0, name := "P1", title := "", institution := "",
         year_of_doctorate := "1950", nationality := "", advisors := [2] }),
   (2, { id_num := 2, gen := 1, name := "P2", title := "", institution := "",
         year_of_doctorate := "1920", nationality := "", advisors := [3] }),
   (3, { id_num := 3, gen := 2, name := "P3", title := "", institution := "",
         year_of_doctorate := "1890", nationality := "", advisors := [] }),
   (4, { id_num := 4, gen := 0, name := "P4", title := "", institution := "",
         year_of_doctorate := "1955", nationality := "", advisors := [3] })]

/-- Environment in which id 2 — the advisor of seed 1 — suffers a
transport failure, while seed 3 is perfectly fetchable. -/
def envF : Env := fun id =>
  match id with
  | 1 => .ok ⟨"A", "", "", "1900", some [2]⟩
  | 3 => .ok ⟨"C", "", "", "1850", some []⟩
  | _ => .failure

/-- Document for id 6 whose advisor section is missing entirely. -/
def doc7 : Doc := ⟨"NoAdv", "T", "I", "1800", none⟩

/-- Environment serving `doc7` at id 6 and failing elsewhere. -/
def env7 : Env := fun id =>
  match id with
  | 6 => .ok doc7
  | _ => .failure

/-- Environment that fails on every id: any fetch at all would abort. -/
def envFailAll : Env := fun _ => .failure

/-- A registered record for id 5 without advisor edges yet. -/
def nodeW : Node :=
  { id_num := 5, gen := 0, name := "W", title := "", institution := "",
    year_of_doctorate := "1900", nationality := "", advisors := [] }

/-- A state in which id 5 is already registered (with one fetch of it
on record). -/
def stW : CrawlState :=
  { graph := [(5, nodeW)], fetchLog := [5], errLog := [] }

/-- The state `stW` after one cyclic self-edge 5 → 5 was appended. -/
def stW1 : CrawlState :=
  { graph := [(5, { nodeW with advisors := [5] })], fetchLog := [5], errLog := [] }

/-- The state `stW` after two cyclic self-edges 5 → 5 were appended. -/
def stW2 : CrawlState :=
  { graph := [(5, { nodeW with advisors := [5, 5] })], fetchLog := [5], errLog := [] }

/-- The state `buildGraph envF [3] 2` reaches: seed 3 alone crawls fine. -/
def stF3 : CrawlState :=
  { graph := [(3, { id_num := 3, gen := 0, name := "C", title := "",
                    institution := "", year_of_doctorate := "1850",
                    nationality := "", advisors := [] })],
    fetchLog := [3], errLog := [] }

/-- Record whose name is long enough that `textwrap.fill(name, 20)`
inserts line breaks. -/
def mozart : Node :=
  { id_num := 7, gen := 0, name := "Johannes Chrysostomus Wolfgangus Mozart",
    title := "", institution := "", year_of_doctorate := "1766",
    nationality := "", advisors := [] }

/-- Candidate list with a single entry matching "doe, jane" up to case
and middle name. -/
def candOne : List (Int × NameT) := [(7, ("doe", "jane", "marie"))]

/-- Candidate list with two entries matching "doe, jane". -/
def candTwo : List (Int × NameT) :=
  [(7, ("doe", "jane", "a")), (8, ("Doe", "Jane", "b"))]

end Mgptree

namespace Mgptree

theorem lookupId_setEntry (g : List (Nat × Node)) (id : Nat) (v : Node) (x : Nat) :
    lookupId (setEntry g id v) x = if id = x then some v else lookupId g x := by
  induction g with
  | nil => simp [setEntry, lookupId]
  | cons kw rest ih =>
    obtain ⟨k, w⟩ := kw
    by_cases hk : k = id
    · subst hk
      by_cases hx : k = x <;> simp [setEntry, lookupId, hx]
    · by_cases hx : k = x
      · subst hx
        have hne : ¬ (id = k) := fun h => hk h.symm
        simp [setEntry, lookupId, hk, hne]
      · simp [setEntry, lookupId, hk, hx, ih]

theorem lookupId_pushAdvisor (g : List (Nat × Node)) (id adv x : Nat) :
    lookupId (pushAdvisor g id adv) x =
      if id = x then Option.map (appendAdv adv) (lookupId g x)
      else lookupId g x := by
  induction g with
  | nil => simp [pushAdvisor, lookupId]
  | cons kw rest ih =>
    obtain ⟨k, w⟩ := kw
    by_cases hk : k = id
    · subst hk
      by_cases hx : k = x <;> simp [pushAdvisor, lookupId, hx, appendAdv]
    · by_cases hx : k = x
      · subst hx
        have hne : ¬ (id = k) := fun h => hk h.symm
        simp [pushAdvisor, lookupId, hk, hne]
      · simp [pushAdvisor, lookupId, hk, hx, ih]

theorem count_append_single_ne (l : List Nat) (id x : Nat) (h : x ≠ id) :
    (l ++ [id]).count x = l.count x := by
  simp [List.count_append, List.count_singleton', h]

theorem crawlNode_eq_failure (env : Env) (id gen max_gen : Nat) (st : CrawlState)
    (henv : env id = .failure) :
    crawlNode env id gen max_gen st = .error () := by
  rw [crawlNode.eq_def, henv]

theorem crawlNode_eq_stop (env : Env) (id gen max_gen : Nat) (st : CrawlState)
    (doc : Doc) (henv : env id = .ok doc) (hle : max_gen ≤ gen) :
    crawlNode env id gen max_gen st =
      .ok { graph := setEntry st.graph id (mkNode id gen doc),
            fetchLog := st.fetchLog ++ [id], errLog := st.errLog } := by
  rw [crawlNode.eq_def, henv]
  simp [hle]

theorem crawlNode_eq_noadv (env : Env) (id gen max_gen : Nat) (st : CrawlState)
    (doc : Doc) (henv : env id = .ok doc) (hgt : ¬ max_gen ≤ gen)
    (hnone : doc.advisorIds = none) :
    crawlNode env id gen max_gen st =
      .ok { graph := setEntry st.graph id (mkNode id gen doc),
            fetchLog := st.fetchLog ++ [id],
            errLog := st.errLog ++ ["Error finding advisor for " ++ doc.name] } := by
  rw [crawlNode.eq_def, henv]
  simp [hgt, hnone]

theorem crawlNode_eq_advs (env : Env) (id gen max_gen : Nat) (st : CrawlState)
    (doc : Doc) (advs : List Nat) (henv : env id = .ok doc)
    (hgt : ¬ max_gen ≤ gen) (hsome : doc.advisorIds = some advs) :
    crawlNode env id gen max_gen st =
      crawlAdvisors env id gen max_gen advs
        { graph := setEntry st.graph id (mkNode id gen doc),
          fetchLog := st.fetchLog ++ [id], errLog := st.errLog } := by
  rw [crawlNode.eq_def, henv]
  simp [hgt, hsome]

theorem crawlAdvisors_nil (env : Env) (selfId gen max_gen : Nat) (st : CrawlState) :
    crawlAdvisors env selfId gen max_gen [] st = .ok st := by
  rw [crawlAdvisors.eq_def]

theorem crawlAdvisors_cons_mem (env : Env) (selfId gen max_gen adv : Nat)
    (rest : List Nat) (st : CrawlState)
    (hmem : (lookupId st.graph adv).isSome = true) :
    crawlAdvisors env selfId gen max_gen (adv :: rest) st =
      crawlAdvisors env selfId gen max_gen rest
        { st with graph := pushAdvisor st.graph selfId adv } := by
  rw [crawlAdvisors.eq_def]
  simp [hmem]

theorem crawlAdvisors_cons_new (env : Env) (selfId gen max_gen adv : Nat)
    (rest : List Nat) (st : CrawlState)
    (hnmem : ¬ (lookupId st.graph adv).isSome = true) :
    crawlAdvisors env selfId gen max_gen (adv :: rest) st =
      match crawlNode env adv (gen + 1) max_gen st with
      | .error e => .error e
      | .ok st2 =>
        crawlAdvisors env selfId gen max_gen rest
          { st2 with graph := pushAdvisor st2.graph selfId adv } := by
  rw [crawlAdvisors.eq_def]
  simp [hnmem]

theorem push_isSome (g : List (Nat × Node)) (id adv x : Nat) :
    (lookupId (pushAdvisor g id adv) x).isSome = (lookupId g x).isSome := by
  rw [lookupId_pushAdvisor]
  by_cases h : id = x <;> simp [h]

theorem push_gen (g : List (Nat × Node)) (id adv x : Nat) :
    Option.map Node.gen (lookupId (pushAdvisor g id adv) x) =
      Option.map Node.gen (lookupId g x) := by
  rw [lookupId_pushAdvisor]
  by_cases h : id = x
  · simp [h, Option.map_map]
    cases lookupId g x <;> simp [appendAdv]
  · simp [h]

theorem push_GensLE (g : List (Nat × Node)) (id adv : Nat) (N : Nat)
    (h : GensLE g N) : GensLE (pushAdvisor g id adv) N := by
  intro x nd hl
  rw [lookupId_pushAdvisor] at hl
  by_cases hx : id = x
  · rw [if_pos hx] at hl
    cases hg : lookupId g x with
    | none => rw [hg] at hl; simp at hl
    | some w =>
      rw [hg] at hl
      simp [appendAdv] at hl
      have := h x w hg
      rw [← hl]
      simpa [appendAdv] using this
  · rw [if_neg hx] at hl
    exact h x nd hl

theorem push_Closed (g : List (Nat × Node)) (id adv : Nat)
    (hadv : (lookupId g adv).isSome = true) (h : Closed g) :
    Closed (pushAdvisor g id adv) := by
  intro x nd a hl ha
  rw [push_isSome]
  rw [lookupId_pushAdvisor] at hl
  by_cases hx : id = x
  · rw [if_pos hx] at hl
    cases hg : lookupId g x with
    | none => rw [hg] at hl; simp at hl
    | some w =>
      rw [hg] at hl
      simp [appendAdv] at hl
      rw [← hl] at ha
      simp [appendAdv] at ha
      rcases ha with ha | ha
      · exact h x w a hg ha
      · rw [ha]; exact hadv
  · rw [if_neg hx] at hl
    exact h x nd a hl ha

theorem set_isSome_of (g : List (Nat × Node)) (id : Nat) (v : Node) (x : Nat)
    (h : (lookupId g x).isSome = true) :
    (lookupId (setEntry g id v) x).isSome = true := by
  rw [lookupId_setEntry]
  by_cases hx : id = x <;> simp [hx, h]

theorem set_isSome_self (g : List (Nat × Node)) (id : Nat) (v : Node) :
    (lookupId (setEntry g id v) id).isSome = true := by
  rw [lookupId_setEntry]
  simp

theorem set_lookup_ne (g : List (Nat × Node)) (id : Nat) (v : Node) (x : Nat)
    (h : x ≠ id) : lookupId (setEntry g id v) x = lookupId g x := by
  rw [lookupId_setEntry]
  rw [if_neg (fun hh => h hh.symm)]

theorem set_GensLE (g : List (Nat × Node)) (id : Nat) (v : Node) (N : Nat)
    (hv : v.gen ≤ N) (h : GensLE g N) : GensLE (setEntry g id v) N := by
  intro x nd hl
  rw [lookupId_setEntry] at hl
  by_cases hx : id = x
  · rw [if_pos hx] at hl
    cases hl
    exact hv
  · rw [if_neg hx] at hl
    exact h x nd hl

theorem set_Closed_mk (g : List (Nat × Node)) (id gen : Nat) (doc : Doc)
    (h : Closed g) : Closed (setEntry g id (mkNode id gen doc)) := by
  intro x nd a hl ha
  rw [lookupId_setEntry] at hl
  by_cases hx : id = x
  · rw [if_pos hx] at hl
    cases hl
    simp [mkNode] at ha
  · rw [if_neg hx] at hl
    exact set_isSome_of g id (mkNode id gen doc) a (h x nd a hl ha)

theorem crawl_post (env : Env) :
    (∀ id gen max_gen st st', crawlNode env id gen max_gen st = .ok st' →
      NodePost id gen max_gen st st')
    ∧ (∀ selfId gen max_gen advs st st',
        crawlAdvisors env selfId gen max_gen advs st = .ok st' →
        AdvPost gen max_gen st st') := by
  refine crawlNode.mutual_induct env
    (fun id gen max_gen st => ∀ st',
      crawlNode env id gen max_gen st = .ok st' → NodePost id gen max_gen st st')
    (fun selfId gen max_gen advs st => ∀ st',
      crawlAdvisors env selfId gen max_gen advs st = .ok st' → AdvPost gen max_gen st st')
    ?_ ?_ ?_ ?_ ?_ ?_ ?_ ?_
  · -- fetch failure: no ok result
    intro id gen max_gen st henv st' h
    rw [crawlNode_eq_failure env id gen max_gen st henv] at h
    cases h
  · -- generation cap reached: register and stop
    intro id gen max_gen st doc henv hle st' h
    rw [crawlNode_eq_stop env id gen max_gen st doc henv hle] at h
    injection h with h
    subst h
    refine ⟨set_isSome_self _ _ _, fun x hx => set_isSome_of _ _ _ _ hx,
           fun x hx hne => count_append_single_ne _ _ _ hne,
           fun x nd hl hne => ?_, fun hgen hg => ?_, fun hc => ?_⟩
    · show Option.map Node.gen (lookupId (setEntry st.graph id (mkNode id gen doc)) x) = some nd.gen
      rw [set_lookup_ne _ _ _ _ hne, hl]
      rfl
    · exact set_GensLE _ _ _ _ (by simpa [mkNode] using hgen) hg
    · exact set_Closed_mk _ _ _ _ hc
  · -- advisor section missing: register, log, stop
    intro id gen max_gen st doc henv hgt hnone st' h
    rw [crawlNode_eq_noadv env id gen max_gen st doc henv hgt hnone] at h
    injection h with h
    subst h
    refine ⟨set_isSome_self _ _ _, fun x hx => set_isSome_of _ _ _ _ hx,
           fun x hx hne => count_append_single_ne _ _ _ hne,
           fun x nd hl hne => ?_, fun hgen hg => ?_, fun hc => ?_⟩
    · show Option.map Node.gen (lookupId (setEntry st.graph id (mkNode id gen doc)) x) = some nd.gen
      rw [set_lookup_ne _ _ _ _ hne, hl]
      rfl
    · exact set_GensLE _ _ _ _ (by simpa [mkNode] using hgen) hg
    · exact set_Closed_mk _ _ _ _ hc
  · -- advisor section present: register, then walk the list
    intro id gen max_gen st doc henv st1 hgt advs hsome ih st' h
    rw [crawlNode_eq_advs env id gen max_gen st doc advs henv hgt hsome] at h
    have hp := ih st' h
    obtain ⟨hmono, hcount, hgen, hbound, hclosed⟩ := hp
    refine ⟨hmono id (set_isSome_self _ _ _),
           fun x hx => hmono x (set_isSome_of _ _ _ _ hx),
           fun x hx hne => ?_, fun x nd hl hne => ?_, fun hgle hg => ?_, fun hc => ?_⟩
    · have h1 := hcount x (set_isSome_of st.graph id (mkNode id gen doc) x hx)
      have h2 : ((st.fetchLog ++ [id]).count x) = st.fetchLog.count x :=
        count_append_single_ne _ _ _ hne
      calc st'.fetchLog.count x = (st.fetchLog ++ [id]).count x := h1
        _ = st.fetchLog.count x := h2
    · have hl1 : lookupId (setEntry st.graph id (mkNode id gen doc)) x = some nd := by
        rw [set_lookup_ne _ _ _ _ hne, hl]
      exact hgen x nd hl1
    · exact hbound (by omega) (set_GensLE _ _ _ _ (by simpa [mkNode] using hgle) hg)
    · exact hclosed (set_Closed_mk _ _ _ _ hc)
  · -- empty advisor list
    intro selfId gen max_gen st st' h
    rw [crawlAdvisors_nil] at h
    injection h with h
    subst h
    exact ⟨fun x hx => hx, fun x _ => rfl, fun x nd hl => by rw [hl]; rfl,
           fun _ hg => hg, fun hc => hc⟩
  · -- advisor already registered: reuse it
    intro selfId gen max_gen adv rest st hmem ih st' h
    rw [crawlAdvisors_cons_mem env selfId gen max_gen adv rest st hmem] at h
    have hp := ih st' h
    obtain ⟨hmono, hcount, hgen, hbound, hclosed⟩ := hp
    refine ⟨fun x hx => hmono x (by rw [push_isSome]; exact hx),
           fun x hx => hcount x (by rw [push_isSome]; exact hx),
           fun x nd hl => ?_, fun hlt hg => ?_, fun hc => ?_⟩
    · have h1 : Option.map Node.gen (lookupId (pushAdvisor st.graph selfId adv) x)
          = some nd.gen := by rw [push_gen, hl]; rfl
      obtain ⟨nd2, hnd2, hg2⟩ := Option.map_eq_some'.mp h1
      have := hgen x nd2 hnd2
      rw [this, hg2]
    · exact hbound hlt (push_GensLE _ _ _ _ hg)
    · exact hclosed (push_Closed _ _ _ hmem hc)
  · -- new advisor whose crawl raises: the exception propagates
    intro selfId gen max_gen adv rest st hnmem e herr ih st' h
    rw [crawlAdvisors_cons_new env selfId gen max_gen adv rest st hnmem, herr] at h
    cases h
  · -- new advisor: crawl it at gen + 1, then append the edge
    intro selfId gen max_gen adv rest st hnmem st2 hnode ih1 ih2 st' h
    rw [crawlAdvisors_cons_new env selfId gen max_gen adv rest st hnmem, hnode] at h
    have hn := ih1 st2 hnode
    obtain ⟨hnself, hnmono, hncount, hngen, hnbound, hnclosed⟩ := hn
    have ha := ih2 st' h
    obtain ⟨hamono, hacount, hagen, habound, haclosed⟩ := ha
    have hxadv : ∀ x, (lookupId st.graph x).isSome = true → x ≠ adv := by
      intro x hx he
      exact hnmem (he ▸ hx)
    refine ⟨fun x hx => hamono x (by rw [push_isSome]; exact hnmono x hx),
           fun x hx => ?_, fun x nd hl => ?_, fun hlt hg => ?_, fun hc => ?_⟩
    · have h1 := hacount x (by rw [push_isSome]; exact hnmono x hx)
      have h2 := hncount x hx (hxadv x hx)
      calc st'.fetchLog.count x = st2.fetchLog.count x := h1
        _ = st.fetchLog.count x := h2
    · have hx : (lookupId st.graph x).isSome = true := by rw [hl]; rfl
      have h1 := hngen x nd hl (hxadv x hx)
      have h2 : Option.map Node.gen (lookupId (pushAdvisor st2.graph selfId adv) x)
          = some nd.gen := by rw [push_gen]; exact h1
      obtain ⟨nd2, hnd2, hg2⟩ := Option.map_eq_some'.mp h2
      have := hagen x nd2 hnd2
      rw [this, hg2]
    · exact habound hlt (push_GensLE _ _ _ _ (hnbound (by omega) hg))
    · exact haclosed (push_Closed _ _ _ hnself (hnclosed hc))

end Mgptree

namespace Mgptree

theorem crawlSeeds_post (env : Env) (seeds : List Nat) (max_gen : Nat) :
    ∀ st st', crawlSeeds env seeds max_gen st = .ok st' →
      (GensLE st.graph max_gen → GensLE st'.graph max_gen)
      ∧ (Closed st.graph → Closed st'.graph)
      ∧ (∀ x, (lookupId st.graph x).isSome = true →
          (lookupId st'.graph x).isSome = true) := by
  induction seeds with
  | nil =>
    intro st st' h
    simp only [crawlSeeds] at h
    injection h with h
    subst h
    exact ⟨fun hg => hg, fun hc => hc, fun x hx => hx⟩
  | cons s rest ih =>
    intro st st' h
    simp only [crawlSeeds] at h
    cases hnode : crawlNode env s 0 max_gen st with
    | error e => rw [hnode] at h; cases h
    | ok st1 =>
      rw [hnode] at h
      have hn := (crawl_post env).1 s 0 max_gen st st1 hnode
      obtain ⟨_, hnmono, _, _, hnbound, hnclosed⟩ := hn
      have hr := ih st1 st' h
      exact ⟨fun hg => hr.1 (hnbound (Nat.zero_le _) hg),
             fun hc => hr.2.1 (hnclosed hc),
             fun x hx => hr.2.2 x (hnmono x hx)⟩

theorem dot_string_brief (n : Node) (b : Bool) :
    n.dot_string b true =
      nodeDeclString n ++
        (if b then String.join (n.advisors.map (fun adv => edgeString adv n.id_num))
         else "") := by
  cases b <;> simp [Node.dot_string, nodeDeclString, String.append_empty]

theorem strJoin_cons (s : String) (l : List String) :
    String.join (s :: l) = s ++ String.join l := by
  have haux : ∀ (l : List String) (a : String),
      l.foldl (fun r t => r ++ t) a = a ++ l.foldl (fun r t => r ++ t) "" := by
    intro l
    induction l with
    | nil => intro a; rw [List.foldl_nil, List.foldl_nil, String.append_empty]
    | cons t l ih =>
      intro a
      simp only [List.foldl_cons]
      rw [ih (a ++ t), ih ("" ++ t), String.empty_append, String.append_assoc]
  show (s :: l).foldl (fun r t => r ++ t) "" = s ++ l.foldl (fun r t => r ++ t) ""
  simp only [List.foldl_cons]
  rw [haux l ("" ++ s), String.empty_append]

theorem renderAmendedC5_cons (kn : Nat × Node) (rest : List (Nat × Node)) (d : Nat) :
    renderAmendedC5 (kn :: rest) d =
      (if kn.2.gen ≤ d then
        nodeDeclString kn.2 ++
          (if kn.2.gen < d then
            String.join (kn.2.advisors.map (fun a => edgeString a kn.2.id_num))
          else "")
      else "") ++ renderAmendedC5 rest d := by
  simp only [renderAmendedC5, List.map_cons]
  exact strJoin_cons _ _

theorem graph_foldl_general (d : Nat) :
    ∀ (nodes : List (Nat × Node)) (acc : String),
      nodes.foldl
        (fun node_string kn =>
          if kn.2.gen ≤ d then
            node_string ++ kn.2.dot_string (kn.2.gen != d) true
          else node_string)
        acc = acc ++ renderAmendedC5 nodes d := by
  intro nodes
  induction nodes with
  | nil =>
    intro acc
    simp [renderAmendedC5, String.join, String.append_empty]
  | cons kn rest ih =>
    intro acc
    simp only [List.foldl_cons]
    by_cases hle : kn.2.gen ≤ d
    · rw [if_pos hle, ih]
      have hent : kn.2.dot_string (kn.2.gen != d) true =
          nodeDeclString kn.2 ++
            (if kn.2.gen < d then
              String.join (kn.2.advisors.map (fun a => edgeString a kn.2.id_num))
             else "") := by
        rw [dot_string_brief]
        by_cases hlt : kn.2.gen < d
        · have hne : (kn.2.gen != d) = true := by
            simp only [bne_iff_ne, ne_eq, decide_eq_true_eq]
            omega
          rw [hne, if_pos hlt]
          simp
        · have hne : (kn.2.gen != d) = false := by
            simp only [bne_eq_false_iff_eq]
            omega
          rw [hne, if_neg hlt]
          simp
      rw [hent, renderAmendedC5_cons, if_pos hle, String.append_assoc]
    · rw [if_neg hle, ih, renderAmendedC5_cons, if_neg hle, String.empty_append]

end Mgptree

namespace Mgptree

/-- Claim C3: for every crawl with `maxGenerations = N` (N non-negative),
every record in the resulting graph has generation at most `N`; and when
a record's generation equals `N` the crawl registers the record — still
retained, with an empty advisor list — but does not expand its advisors
(the returned state shows exactly one fetch and no advisor walk). -/
theorem generation_bound_and_frontier_retained :
    (∀ (env : Env) (seeds : List Nat) (N : Nat) (st' : CrawlState),
      buildGraph env seeds N = .ok st' →
      ∀ x nd, lookupId st'.graph x = some nd → nd.gen ≤ N)
    ∧ (∀ (env : Env) (id N : Nat) (st : CrawlState) (doc : Doc),
      env id = .ok doc →
      crawlNode env id N N st =
        .ok { graph := setEntry st.graph id (mkNode id N doc),
              fetchLog := st.fetchLog ++ [id], errLog := st.errLog }
      ∧ (mkNode id N doc).advisors = []) := by
  constructor
  · intro env seeds N st' h x nd hl
    have hge : GensLE ((⟨[], [], []⟩ : CrawlState).graph) N := by
      intro y ndy hy
      simp [lookupId] at hy
    exact (crawlSeeds_post env seeds N _ st' h).1 hge x nd hl
  · intro env id N st doc henv
    exact ⟨crawlNode_eq_stop env id N N st doc henv (le_refl N), rfl⟩

/-- Witness for claim C3 at concrete inputs: the crawl of seed 1 in
`envA` with `N = 3` gives record 2 generation 1 ≤ 3, and a crawl of id 6
starting already at the cap `N = 2` registers the record and stops. -/
theorem generation_bound_and_frontier_retained_witness :
    (buildGraph envA [1] 3 = .ok stA3)
    ∧ nodeB2.gen ≤ 3
    ∧ (crawlNode env7 6 2 2 { graph := [], fetchLog := [], errLog := [] } =
        .ok { graph := [(6, mkNode 6 2 doc7)], fetchLog := [6], errLog := [] }) := by
  have h1 : buildGraph envA [1] 3 = .ok stA3 := by
    simp [buildGraph, crawlSeeds, crawlNode, crawlAdvisors, envA, mkNode,
          setEntry, pushAdvisor, lookupId, stA3, nodeA1, nodeB2]
  have h2 : lookupId stA3.graph 2 = some nodeB2 := rfl
  refine ⟨h1, generation_bound_and_frontier_retained.1 envA [1] 3 stA3 h1 2 nodeB2 h2, ?_⟩
  exact (generation_bound_and_frontier_retained.2 env7 6 2
    { graph := [], fetchLog := [], errLog := [] } doc7 rfl).1

/-- Claim C10: closure invariant of the graph store — in any graph a
crawl returns, every advisor reference held by any record refers to an
identity present as a key of the mapping (the advisor is registered
before the edge to it is appended). -/
theorem graph_closed_under_advisor_refs :
    ∀ (env : Env) (seeds : List Nat) (max_gen : Nat) (st' : CrawlState),
      buildGraph env seeds max_gen = .ok st' →
      ∀ x nd a, lookupId st'.graph x = some nd → a ∈ nd.advisors →
        (lookupId st'.graph a).isSome = true := by
  intro env seeds mg st' h x nd a hx ha
  have hc : Closed ((⟨[], [], []⟩ : CrawlState).graph) := by
    intro y ndy b hy
    simp [lookupId] at hy
  exact (crawlSeeds_post env seeds mg _ st' h).2.1 hc x nd a hx ha

/-- Witness for claim C10: in the crawl of `envA`, the edge 2 → 1 held
by record 1 refers to the registered key 2. -/
theorem graph_closed_under_advisor_refs_witness :
    (buildGraph envA [1] 3 = .ok stA3)
    ∧ (lookupId stA3.graph 1 = some nodeA1)
    ∧ (2 ∈ nodeA1.advisors)
    ∧ ((lookupId stA3.graph 2).isSome = true) := by
  have h1 : buildGraph envA [1] 3 = .ok stA3 := by
    simp [buildGraph, crawlSeeds, crawlNode, crawlAdvisors, envA, mkNode,
          setEntry, pushAdvisor, lookupId, stA3, nodeA1, nodeB2]
  have h2 : lookupId stA3.graph 1 = some nodeA1 := rfl
  have h3 : 2 ∈ nodeA1.advisors := by decide
  exact ⟨h1, h2, h3, graph_closed_under_advisor_refs envA [1] 3 stA3 h1 1 nodeA1 2 h2 h3⟩

/-- Claim C7: when a fetched document lacks the advisor section
entirely, the record is still registered in the graph as a leaf (its
advisor list is empty), the event is logged to stderr as an error, and
the crawl returns normally — expansion stops only for that branch. -/
theorem missing_advisor_section_keeps_leaf :
    ∀ (env : Env) (id gen max_gen : Nat) (st : CrawlState) (doc : Doc),
      env id = .ok doc → doc.advisorIds = none → gen < max_gen →
      crawlNode env id gen max_gen st =
        .ok { graph := setEntry st.graph id (mkNode id gen doc),
              fetchLog := st.fetchLog ++ [id],
              errLog := st.errLog ++ ["Error finding advisor for " ++ doc.name] }
      ∧ (mkNode id gen doc).advisors = [] := by
  intro env id gen mg st doc henv hnone hlt
  exact ⟨crawlNode_eq_noadv env id gen mg st doc henv (by omega) hnone, rfl⟩

/-- Witness for claim C7: id 6 of `env7` has no advisor section; its
crawl keeps the record, logs the error line, and returns normally. -/
theorem missing_advisor_section_keeps_leaf_witness :
    (env7 6 = .ok doc7) ∧ (doc7.advisorIds = none) ∧ (0 < 2)
    ∧ (crawlNode env7 6 0 2 { graph := [], fetchLog := [], errLog := [] } =
        .ok { graph := [(6, mkNode 6 0 doc7)], fetchLog := [6],
              errLog := ["Error finding advisor for NoAdv"] })
    ∧ ((mkNode 6 0 doc7).advisors = []) := by
  have h := missing_advisor_section_keeps_leaf env7 6 0 2
    { graph := [], fetchLog := [], errLog := [] } doc7 rfl rfl (by omega)
  exact ⟨rfl, rfl, by omega, h.1, h.2⟩

end Mgptree

namespace Mgptree

/-- Claim C1: an advisor edge pointing at an already-registered record
resolves to that record instead of re-entering expansion — the loop
step reduces to appending the edge and moving on — and across the whole
remaining loop the already-registered advisor is never fetched again.
(Termination itself holds by construction: `crawlNode` and
`crawlAdvisors` are total functions.) -/
theorem advisor_backedge_resolves_to_registered :
    ∀ (env : Env) (selfId gen max_gen adv : Nat) (rest : List Nat)
      (st st' : CrawlState),
      (lookupId st.graph adv).isSome = true →
      crawlAdvisors env selfId gen max_gen (adv :: rest) st = .ok st' →
      (crawlAdvisors env selfId gen max_gen (adv :: rest) st
        = crawlAdvisors env selfId gen max_gen rest
            { st with graph := pushAdvisor st.graph selfId adv })
      ∧ st'.fetchLog.count adv = st.fetchLog.count adv := by
  intro env selfId gen mg adv rest st st' hmem h
  have he := crawlAdvisors_cons_mem env selfId gen mg adv rest st hmem
  refine ⟨he, ?_⟩
  rw [he] at h
  have hp := (crawl_post env).2 selfId gen mg rest _ st' h
  have hc := hp.2.1 adv (by rw [push_isSome]; exact hmem)
  simpa using hc

/-- Witness for claim C1 at a concrete input: a cyclic self-edge 5 → 5
in an environment where every fetch fails; the loop step resolves to
the registered record 5 and issues no fetch at all. -/
theorem advisor_backedge_resolves_to_registered_witness :
    ((lookupId stW.graph 5).isSome = true)
    ∧ (crawlAdvisors envFailAll 5 0 2 [5] stW = .ok stW1)
    ∧ (crawlAdvisors envFailAll 5 0 2 [5] stW
        = crawlAdvisors envFailAll 5 0 2 []
            { stW with graph := pushAdvisor stW.graph 5 5 })
    ∧ stW1.fetchLog.count 5 = stW.fetchLog.count 5 := by
  have h1 : (lookupId stW.graph 5).isSome = true := rfl
  have h2 : crawlAdvisors envFailAll 5 0 2 [5] stW = .ok stW1 := by
    simp [crawlAdvisors, lookupId, pushAdvisor, stW, stW1, nodeW]
  have h := advisor_backedge_resolves_to_registered envFailAll 5 0 2 5 [] stW stW1 h1 h2
  exact ⟨h1, h2, h.1, h.2⟩

/-- Counterexample to claim C2 as stated: with seeds `[1, 2]` where id 2
is already discovered as the advisor of seed 1, the seed loop does not
skip creation — id 2 is fetched (and its `PersonRecord` constructed) a
second time, as the fetch log `[1, 2, 2]` shows. -/
theorem seed_recreates_existing_record :
    (buildGraph envA [1, 2] 1).map (fun st => st.fetchLog) = .ok [1, 2, 2] := by
  simp [buildGraph, crawlSeeds, crawlNode, crawlAdvisors, envA, mkNode,
        setEntry, pushAdvisor, lookupId, Except.map]

/-- Claim C2 as amended: during advisor expansion a `PersonRecord` is
created at most once per identity — an identity already present in the
graph is never fetched (hence never re-created) by any advisor walk; a
seed, however, is always re-crawled (see the counterexample). -/
theorem advisor_expansion_never_recreates :
    ∀ (env : Env) (selfId gen max_gen : Nat) (advs : List Nat)
      (st st' : CrawlState) (x : Nat),
      crawlAdvisors env selfId gen max_gen advs st = .ok st' →
      (lookupId st.graph x).isSome = true →
      st'.fetchLog.count x = st.fetchLog.count x := by
  intro env selfId gen mg advs st st' x h hx
  exact ((crawl_post env).2 selfId gen mg advs st st' h).2.1 x hx

/-- Witness for the amended claim C2: walking the advisor list `[5, 5]`
from a state where id 5 is registered issues no fetch of id 5. -/
theorem advisor_expansion_never_recreates_witness :
    (crawlAdvisors envFailAll 5 0 2 [5, 5] stW = .ok stW2)
    ∧ ((lookupId stW.graph 5).isSome = true)
    ∧ stW2.fetchLog.count 5 = stW.fetchLog.count 5 := by
  have h2 : crawlAdvisors envFailAll 5 0 2 [5, 5] stW = .ok stW2 := by
    simp [crawlAdvisors, lookupId, pushAdvisor, stW, stW1, stW2, nodeW]
  exact ⟨h2, rfl, advisor_expansion_never_recreates envFailAll 5 0 2 [5, 5] stW stW2 5 h2 rfl⟩

/-- Counterexample to claim C4 as stated: id 2 is first discovered as an
advisor at generation 1, but when the same identity later occurs as a
seed the record is re-created and the recorded generation becomes 0 —
the later (seed) path does revise it. -/
theorem later_seed_revises_generation :
    ((crawlNode envA 1 0 1 { graph := [], fetchLog := [], errLog := [] }).map
      (fun st => Option.map Node.gen (lookupId st.graph 2)) = .ok (some 1))
    ∧ ((buildGraph envA [1, 2] 1).map
      (fun st => Option.map Node.gen (lookupId st.graph 2)) = .ok (some 0)) := by
  constructor
  · simp [crawlNode, crawlAdvisors, envA, mkNode, setEntry, pushAdvisor,
          lookupId, Except.map]
  · simp [buildGraph, crawlSeeds, crawlNode, crawlAdvisors, envA, mkNode,
          setEntry, pushAdvisor, lookupId, Except.map]

/-- Claim C4 as amended: the generation recorded at first discovery is
never revised by any later advisor path (shorter or longer) during
advisor expansion; only a later occurrence of the identity as a seed
re-creates the record, resetting its generation to 0 (see the
counterexample). -/
theorem advisor_expansion_generation_stable :
    ∀ (env : Env) (selfId gen max_gen : Nat) (advs : List Nat)
      (st st' : CrawlState) (x : Nat) (nd : Node),
      crawlAdvisors env selfId gen max_gen advs st = .ok st' →
      lookupId st.graph x = some nd →
      Option.map Node.gen (lookupId st'.graph x) = some nd.gen := by
  intro env selfId gen mg advs st st' x nd h hx
  exact ((crawl_post env).2 selfId gen mg advs st st' h).2.2.1 x nd hx

/-- Witness for the amended claim C4: record 5 keeps generation 0
through an advisor walk that touches it twice. -/
theorem advisor_expansion_generation_stable_witness :
    (crawlAdvisors envFailAll 5 0 2 [5] stW = .ok stW1)
    ∧ (lookupId stW.graph 5 = some nodeW)
    ∧ Option.map Node.gen (lookupId stW1.graph 5) = some nodeW.gen := by
  have h2 : crawlAdvisors envFailAll 5 0 2 [5] stW = .ok stW1 := by
    simp [crawlAdvisors, lookupId, pushAdvisor, stW, stW1, nodeW]
  exact ⟨h2, rfl,
    advisor_expansion_generation_stable envFailAll 5 0 2 [5] stW stW1 5 nodeW h2 rfl⟩

end Mgptree

namespace Mgptree

/-- Counterexample to claim C5 as stated: the graph produced by crawling
`env5` holds record 3 at generation 2; rendering with depth 1 excludes
node 3 yet still emits the edge 3 → 4 (record 4 has generation 0 < 1),
so the output differs from the spec renderer that drops edges whose
advisor endpoint is excluded. -/
theorem render_keeps_edge_of_excluded_advisor :
    (buildGraph env5 [1, 4] 5 =
      .ok { graph := nodes5, fetchLog := [1, 2, 3, 4], errLog := [] })
    ∧ graph nodes5 1 ≠ renderClaimC5 nodes5 1 := by
  constructor
  · simp [buildGraph, crawlSeeds, crawlNode, crawlAdvisors, env5, mkNode,
          setEntry, pushAdvisor, lookupId, nodes5]
  · decide

/-- Claim C5 as amended: the render includes a record's node declaration
exactly when its generation is at most `maxGenerationToShow`, and emits
the advisor edges of a record exactly when its generation is strictly
below `maxGenerationToShow` — with no condition on the advisor endpoint,
so an edge to an excluded advisor is still emitted. -/
theorem render_equals_amended_renderer :
    ∀ (nodes : List (Nat × Node)) (d : Nat),
      graph nodes d = renderAmendedC5 nodes d := by
  intro nodes d
  calc graph nodes d = "" ++ renderAmendedC5 nodes d := graph_foldl_general d nodes ""
    _ = renderAmendedC5 nodes d := String.empty_append _

/-- Counterexample to claim C6 as stated: in `envF` the advisor (id 2)
of seed 1 suffers a transport failure.  The whole crawl aborts with the
exception — no graph at all is returned, although seed 3 on its own
crawls perfectly well — so the crawl over other seeds does not
continue. -/
theorem fetch_failure_aborts_whole_crawl :
    (buildGraph envF [1, 3] 2 = .error ())
    ∧ (buildGraph envF [3] 2 = .ok stF3) := by
  constructor <;>
    simp [buildGraph, crawlSeeds, crawlNode, crawlAdvisors, envF, mkNode,
          setEntry, pushAdvisor, lookupId, stF3]

/-- Claim C6 as amended: a transport failure is fatal for the sub-tree
in which it occurs — its crawl returns the exception — and nothing
catches that exception: the seed loop aborts the entire crawl, so a
failure anywhere below any seed kills the whole run. -/
theorem fetch_failure_propagates_globally :
    (∀ (env : Env) (id gen max_gen : Nat) (st : CrawlState),
      env id = .failure → crawlNode env id gen max_gen st = .error ())
    ∧ (∀ (env : Env) (seeds : List Nat) (max_gen id : Nat) (st : CrawlState),
      id ∈ seeds → env id = .failure →
      crawlSeeds env seeds max_gen st = .error ()) := by
  constructor
  · intro env id gen mg st henv
    exact crawlNode_eq_failure env id gen mg st henv
  · intro env seeds mg id
    induction seeds with
    | nil =>
      intro st hmem henv
      cases hmem
    | cons s rest ih =>
      intro st hmem henv
      simp only [crawlSeeds]
      rcases List.mem_cons.mp hmem with hs | hs
      · rw [hs] at henv
        rw [crawlNode_eq_failure env s 0 mg st henv]
      · cases hnode : crawlNode env s 0 mg st with
        | error e =>
          cases e
          rfl
        | ok st1 =>
          exact ih st1 hs henv

/-- Witness for the amended claim C6: the failing fetch of id 2 aborts
its crawl, and a crawl whose seed list contains the failing id 9 aborts
as a whole. -/
theorem fetch_failure_propagates_globally_witness :
    (envF 2 = .failure)
    ∧ (crawlNode envF 2 1 2 { graph := [], fetchLog := [], errLog := [] } = .error ())
    ∧ (9 ∈ [9]) ∧ (envFailAll 9 = .failure)
    ∧ (crawlSeeds envFailAll [9] 3 { graph := [], fetchLog := [], errLog := [] }
        = .error ()) := by
  refine ⟨rfl, fetch_failure_propagates_globally.1 envF 2 1 2 _ rfl,
         by simp, rfl,
         fetch_failure_propagates_globally.2 envFailAll [9] 3 9 _ (by simp) rfl⟩

end Mgptree

namespace Mgptree

/-- Claim C8: `fetchIDNum` filters the candidates with `sameName`, which
compares only the lowercased last and first names (the middle components
are never read); zero matches yield -1 with the not-found error line,
more than one match yields -1 with the multiple-records error line, and
exactly one match yields that candidate's id. -/
theorem resolve_filter_and_cases :
    (∀ l1 f1 m1 l2 f2 m2 : String,
      sameName (l1, f1, m1) (l2, f2, m2)
        = (strLower l1 == strLower l2 && strLower f1 == strLower f2))
    ∧ (∀ (last first middle : String) (candidates : List (Int × NameT)),
        candidates.filter (fun p => sameName p.2 (last, first, middle)) = [] →
        fetchIDNum last first middle candidates =
          (-1, ["Unable to find a record for " ++ last ++ ", " ++ first ++ " " ++ middle]))
    ∧ (∀ (last first middle : String) (candidates : List (Int × NameT))
        (q : Int × NameT),
        candidates.filter (fun p => sameName p.2 (last, first, middle)) = [q] →
        fetchIDNum last first middle candidates = (q.1, []))
    ∧ (∀ (last first middle : String) (candidates : List (Int × NameT)),
        2 ≤ (candidates.filter (fun p => sameName p.2 (last, first, middle))).length →
        fetchIDNum last first middle candidates =
          (-1, ["Found multiple records for " ++ last ++ ", " ++ first ++ " " ++ middle])) := by
  refine ⟨fun l1 f1 m1 l2 f2 m2 => rfl, ?_, ?_, ?_⟩
  · intro last first middle candidates hfil
    simp only [fetchIDNum]
    rw [hfil]
  · intro last first middle candidates q hfil
    simp only [fetchIDNum]
    rw [hfil]
  · intro last first middle candidates hlen
    simp only [fetchIDNum]
    rcases hfil : candidates.filter (fun p => sameName p.2 (last, first, middle)) with
      _ | ⟨a, _ | ⟨b, t⟩⟩
    · rw [hfil] at hlen
      simp at hlen
    · rw [hfil] at hlen
      simp at hlen
    · rw [hfil]

/-- Witness for claim C8 at concrete inputs: the query (doe, jane)
matches one candidate despite case and middle-name differences; an
empty candidate list yields -1 with the not-found line; two matching
candidates yield -1 with the multiple-records line. -/
theorem resolve_filter_and_cases_witness :
    (sameName ("doe", "jane", "q") ("Doe", "Jane", "marie")
      = (strLower "doe" == strLower "Doe" && strLower "jane" == strLower "Jane"))
    ∧ (fetchIDNum "doe" "jane" "" [] =
        (-1, ["Unable to find a record for doe, jane "]))
    ∧ (fetchIDNum "Doe" "Jane" "q" candOne = (7, []))
    ∧ (fetchIDNum "doe" "jane" "" candTwo =
        (-1, ["Found multiple records for doe, jane "])) := by
  refine ⟨resolve_filter_and_cases.1 "doe" "jane" "q" "Doe" "Jane" "marie", ?_, ?_, ?_⟩
  · exact resolve_filter_and_cases.2.1 "doe" "jane" "" [] rfl
  · exact resolve_filter_and_cases.2.2.1 "Doe" "Jane" "q" candOne
      (7, ("doe", "jane", "marie")) (by decide)
  · exact resolve_filter_and_cases.2.2.2 "doe" "jane" "" candTwo (by decide)

/-- Code bug recorded under claim C9: in brief mode `dot_string`
computes the wrapped, newline-escaped name into a local variable and
then formats the label from the raw `self.name`, so the emitted label
is the unwrapped name — here shown on a name long enough that the
wrapped form (which the claim and the spec call for) differs. -/
theorem dot_string_discards_wrapped_name :
    (mozart.dot_string true true =
      "node7[label=\"Johannes Chrysostomus Wolfgangus Mozart\\n1766\"];\n")
    ∧ (escapeNl (textwrapFill 20 mozart.name) =
      "Johannes\\nChrysostomus\\nWolfgangus Mozart")
    ∧ (mozart.name ≠ escapeNl (textwrapFill 20 mozart.name)) := by
  refine ⟨by decide, by decide, by decide⟩

end Mgptree
